import Mathlib

/-!
Verification of the Meteora position monitor bot.

This file gives a shallow embedding of the two TypeScript modules in the
repository: the plain monitoring bot (class MeteoraMonitor) and the
monitoring-plus-rebalancing bot (module-level checkPositions,
rebalancePosition, removePositionLiquidity, swap, createNewPosition,
getTokenBalances).  External collaborators (RPC queries, Telegram,
transaction submission, the LiFi swap service) are modelled as inputs:
an environment record supplies the values they would return and flags
saying whether each call throws.  BN arithmetic on balances is modelled
with Nat (balances are non-negative and BN division truncates);
bin indices are Int.  Notifications are accumulated in a list of Msg
values in the order the bot sends them.
-/

/-- One Telegram notification, identified by which send site produced it. -/
inductive Msg where
  | outOfRangeAlert (key : String)
  | backInRange (key : String)
  | checkError (err : String)
  | skipRebalance
  | startingRebalance
  | removedLiquidity
  | removeLiquidityFailed
  | executingSwap
  | swapCompleted
  | swapFailed
  | newPositionCreated
  | createPositionFailed
  | rebalanceCompleted
  | rebalanceFailed
  deriving DecidableEq, Repr

/-- Entry of the position-status map (interface PositionStatus, without the
redundant positionKey field that only duplicates the map key). -/
structure PositionStatus where
  isInRange : Bool
  lastNotified : Bool
  deriving DecidableEq, Repr

/-- The in-memory position-status map (a JS Map from position key strings to
PositionStatus), modelled as an association list. -/
abbrev StatusMap := List (String × PositionStatus)

/-- Map.get: first binding for the key, if any. -/
def mapGet : StatusMap → String → Option PositionStatus
  | [], _ => none
  | (k', v) :: rest, k => if k' = k then some v else mapGet rest k

/-- Map.set: replace the binding for the key, or append a fresh one. -/
def mapSet : StatusMap → String → PositionStatus → StatusMap
  | [], k, v => [(k, v)]
  | (k', v') :: rest, k, v =>
      if k' = k then (k, v) :: rest else (k', v') :: mapSet rest k v

/-- The data of one position as returned by getPositionsByUserAndLbPair:
its key and the bin bounds of its range. -/
structure PositionObs where
  positionKey : String
  lowerBin : Int
  upperBin : Int
  deriving DecidableEq, Repr

/-! ## RebalancePlanner: the pure swap decision inside rebalancePosition

In the source this is inlined in rebalancePosition (lines 433-458):
xValue = xBalance, yValue = yBalance*priceBN/1e6 with
priceBN = floor(price*1e6), then the larger-value side is halved, and the
swap runs only if the amount is positive and the sell-side value strictly
exceeds totalValue/100. -/

/-- The chosen swap: which direction and how much to sell.
swapYToX = false sells asset X (USDC), swapYToX = true sells asset Y (SOL). -/
structure SwapPlan where
  swapAmount : Nat
  swapYToX : Bool
  deriving DecidableEq, Repr

/-- Value of the Y balance in X units: yBalance * floor(price*1e6) / 1e6,
all in truncated integer arithmetic (BN.mul then BN.div). -/
def yValueOf (yBalance priceScaled : Nat) : Nat :=
  yBalance * priceScaled / 1000000

/-- Which side to sell and how much (rebalancePosition lines 443-452):
if xValue > yValue sell half of the X balance, else half of the Y balance. -/
def swapDecision (xBalance yBalance priceScaled : Nat) : SwapPlan :=
  let xValue := xBalance
  let yValue := yValueOf yBalance priceScaled
  if xValue > yValue then
    { swapAmount := xBalance / 2, swapYToX := false }
  else
    { swapAmount := yBalance / 2, swapYToX := true }

/-- The guard of the swap call (rebalancePosition lines 454-458): swap only
if the amount is positive and the value of the side being sold strictly
exceeds minSwapThreshold = totalValue / 100. -/
def shouldSwap (xBalance yBalance priceScaled : Nat) : Bool :=
  let xValue := xBalance
  let yValue := yValueOf yBalance priceScaled
  let totalValue := xValue + yValue
  let minSwapThreshold := totalValue / 100
  let plan := swapDecision xBalance yBalance priceScaled
  let valueToCheck := if plan.swapYToX then yValue else xValue
  decide (plan.swapAmount > 0) && decide (valueToCheck > minSwapThreshold)

/-- new BN(0.07 * 1e9): the SOL reserved for fees, 0.07e9 base units. -/
def reservedSol : Nat := 70000000

/-- SOL amount deposited after the rebalance (rebalancePosition lines
470-473): the re-read balance minus the reserve if it exceeds the reserve,
otherwise zero. -/
def solToDeposit (finalYBalance : Nat) : Nat :=
  if finalYBalance > reservedSol then finalYBalance - reservedSol else 0

/-! ## RebalanceExecutor

The environment supplies everything an execution of rebalancePosition can
observe from its collaborators, including whether each external call
throws. -/

/-- Inputs and collaborator outcomes for one run of rebalancePosition. -/
structure RebalanceEnv where
  /-- dlmm.removeLiquidity itself throws (before any submission). -/
  withdrawCallFails : Bool
  /-- Outcome of each withdraw sub-transaction submission, in order
  (true = sendAndConfirmTransaction succeeds). -/
  withdrawTxs : List Bool
  /-- The first getTokenBalances call throws. -/
  balanceReadFails : Bool
  /-- X balance returned by the first getTokenBalances call. -/
  xBalance : Nat
  /-- Y (native) balance returned by the first getTokenBalances call. -/
  yBalance : Nat
  /-- getActiveBin throws, or activeBin.price is undefined. -/
  activeBinFails : Bool
  /-- floor(activeBin.price * 1e6), the scaled price used for planning. -/
  priceScaled : Nat
  /-- getRoutes succeeds and returns at least one route. -/
  routeFound : Bool
  /-- executeRoute throws. -/
  swapExecFails : Bool
  /-- The second getTokenBalances call (after the settle wait) throws. -/
  finalBalanceReadFails : Bool
  /-- X balance returned by the second getTokenBalances call. -/
  finalXBalance : Nat
  /-- Y balance returned by the second getTokenBalances call. -/
  finalYBalance : Nat
  /-- activeBin.binId fetched inside createNewPosition at deposit time. -/
  activeBinAtDeposit : Int
  /-- sendAndConfirmTransaction for the new position throws (this also
  covers a failing getActiveBin or initializePosition call there). -/
  depositTxFails : Bool
  /-- message text of whichever error is thrown, if one is. -/
  errMsg : String
  deriving DecidableEq, Repr

/-- The submission loop of removePositionLiquidity (lines 390-409): the
try block wraps the whole for loop, so each successful submission sends a
removed-liquidity message, and the first failing submission sends the
failure message and leaves the loop; the error is swallowed (not
rethrown).  Returns the messages sent and the number of sub-transactions
actually submitted. -/
def removeLiquidityLoop : List Bool → List Msg × Nat
  | [] => ([], 0)
  | ok :: rest =>
      if ok then
        let r := removeLiquidityLoop rest
        (Msg.removedLiquidity :: r.1, r.2 + 1)
      else
        ([Msg.removeLiquidityFailed], 1)

/-- The swap function (lines 261-326).  The try block: getRoutes (failure
or an empty route list throws), the pre-execution message, executeRoute
(may throw), the completion message; the catch sends the swap-failed
message and rethrows.  Returns the messages sent and whether the call
threw to its caller. -/
def swap (routeFound swapExecFails : Bool) : List Msg × Bool :=
  if routeFound = false then
    ([Msg.swapFailed], true)
  else if swapExecFails then
    ([Msg.executingSwap, Msg.swapFailed], true)
  else
    ([Msg.executingSwap, Msg.swapCompleted], false)

/-- createNewPosition (lines 328-373): range is
[activeBin.binId - 5, activeBin.binId + 5] (totalIntervalRange = 5); the
deposited amounts are exactly the arguments (the JS fallbacks
xAmount || 0 and yAmount || 0 never apply: a BN object is always truthy).
Returns the messages sent, whether it threw, and on success the deposit
record (xAmount, yAmount, minBinId, maxBinId). -/
def createNewPosition (activeBinId : Int) (xAmount yAmount : Nat)
    (txFails : Bool) : List Msg × Bool × Option (Nat × Nat × Int × Int) :=
  let totalIntervalRange : Int := 5
  let maxBinId := activeBinId + totalIntervalRange
  let minBinId := activeBinId - totalIntervalRange
  if txFails then
    ([Msg.createPositionFailed], true, none)
  else
    ([Msg.newPositionCreated], false, some (xAmount, yAmount, minBinId, maxBinId))

/-- What one run of the try block of rebalancePosition did (everything
between the starting message and the catch/finally). -/
structure BodyResult where
  /-- an exception escaped the try block -/
  errored : Bool
  msgs : List Msg
  /-- number of withdraw sub-transactions submitted -/
  withdrawAttempts : Nat
  /-- the swap call, if it was made: (amount, swapYToX) -/
  swapCall : Option (Nat × Bool)
  /-- the deposit, if it happened: (xAmount, yAmount, minBinId, maxBinId) -/
  deposited : Option (Nat × Nat × Int × Int)
  deriving DecidableEq, Repr

/-- The deposit tail of the pipeline: second getTokenBalances, the fee
reserve computation, and createNewPosition (lines 466-482). -/
def depositPhase (env : RebalanceEnv) : BodyResult :=
  if env.finalBalanceReadFails then
    { errored := true, msgs := [], withdrawAttempts := 0, swapCall := none,
      deposited := none }
  else
    let c := createNewPosition env.activeBinAtDeposit env.finalXBalance
      (solToDeposit env.finalYBalance) env.depositTxFails
    { errored := c.2.1, msgs := c.1, withdrawAttempts := 0, swapCall := none,
      deposited := c.2.2 }

/-- The try block of rebalancePosition (lines 420-484): withdraw, first
balance read, active-bin read, plan, optional swap, settle wait (no
observable effect), deposit. -/
def rebalanceBody (env : RebalanceEnv) : BodyResult :=
  if env.withdrawCallFails then
    { errored := true, msgs := [], withdrawAttempts := 0, swapCall := none,
      deposited := none }
  else
    let w := removeLiquidityLoop env.withdrawTxs
    if env.balanceReadFails then
      { errored := true, msgs := w.1, withdrawAttempts := w.2,
        swapCall := none, deposited := none }
    else if env.activeBinFails then
      { errored := true, msgs := w.1, withdrawAttempts := w.2,
        swapCall := none, deposited := none }
    else
      let plan := swapDecision env.xBalance env.yBalance env.priceScaled
      if shouldSwap env.xBalance env.yBalance env.priceScaled then
        let s := swap env.routeFound env.swapExecFails
        if s.2 then
          { errored := true, msgs := w.1 ++ s.1, withdrawAttempts := w.2,
            swapCall := some (plan.swapAmount, plan.swapYToX),
            deposited := none }
        else
          let d := depositPhase env
          { errored := d.errored, msgs := w.1 ++ s.1 ++ d.msgs,
            withdrawAttempts := w.2,
            swapCall := some (plan.swapAmount, plan.swapYToX),
            deposited := d.deposited }
      else
        let d := depositPhase env
        { errored := d.errored, msgs := w.1 ++ d.msgs,
          withdrawAttempts := w.2, swapCall := none,
          deposited := d.deposited }

/-- Result of a call to rebalancePosition as seen by its caller. -/
structure RebalanceOutcome where
  /-- value of the isRebalancing flag after the call -/
  flagAfter : Bool
  /-- the call threw to its caller -/
  errored : Bool
  msgs : List Msg
  withdrawAttempts : Nat
  swapCall : Option (Nat × Bool)
  deposited : Option (Nat × Nat × Int × Int)
  deriving DecidableEq, Repr

/-- rebalancePosition (lines 412-493).  Entry guard: if the flag is
already set, send the skip message and return.  Otherwise set the flag,
run the body; the catch sends the failure message and rethrows, the
success path ends with the completion message, and the finally clears
the flag on every path. -/
def rebalancePosition (isRebalancing : Bool) (env : RebalanceEnv) :
    RebalanceOutcome :=
  if isRebalancing then
    { flagAfter := true, errored := false, msgs := [Msg.skipRebalance],
      withdrawAttempts := 0, swapCall := none, deposited := none }
  else
    let b := rebalanceBody env
    { flagAfter := false, errored := b.errored,
      msgs := Msg.startingRebalance :: b.msgs ++
        (if b.errored then [Msg.rebalanceFailed] else [Msg.rebalanceCompleted]),
      withdrawAttempts := b.withdrawAttempts, swapCall := b.swapCall,
      deposited := b.deposited }

/-! ## RangeTracker, plain monitor (class MeteoraMonitor, first module)

Its checkPositions (lines 60-100) tracks range transitions and sends
alerts but never rebalances.  The per-position body of the for loop is
checkOnePosition; Telegram sends are modelled as always succeeding
(the notification channel is best-effort). -/

namespace MeteoraMonitor

/-- The body of the for loop in checkPositions (lines 66-94): compute
isInRange, read the stored status (defaulting to in-range / not
notified), send the out-of-range alert or the back-in-range message on
the corresponding edge, update lastNotified, then store the status with
the fresh isInRange. -/
def checkOnePosition (m : StatusMap) (activeBinId : Int) (p : PositionObs) :
    StatusMap × List Msg :=
  let isInRange := decide (p.lowerBin ≤ activeBinId ∧ activeBinId ≤ p.upperBin)
  let status := (mapGet m p.positionKey).getD
    { isInRange := true, lastNotified := false }
  if !isInRange && !status.lastNotified then
    (mapSet m p.positionKey { isInRange := isInRange, lastNotified := true },
     [Msg.outOfRangeAlert p.positionKey])
  else if isInRange && status.lastNotified then
    (mapSet m p.positionKey { isInRange := isInRange, lastNotified := false },
     [Msg.backInRange p.positionKey])
  else
    (mapSet m p.positionKey
       { isInRange := isInRange, lastNotified := status.lastNotified }, [])

/-- The for loop of checkPositions over the fetched positions. -/
def checkPositionsLoop (activeBinId : Int) :
    StatusMap → List PositionObs → StatusMap × List Msg
  | m, [] => (m, [])
  | m, p :: ps =>
      let r := checkOnePosition m activeBinId p
      let rest := checkPositionsLoop activeBinId r.1 ps
      (rest.1, r.2 ++ rest.2)

/-- checkPositions (lines 60-100): if the position-list or active-bin
query throws, the catch sends one error message and nothing else happens;
otherwise the loop runs over all fetched positions. -/
def checkPositions (m : StatusMap) (queryFails : Bool) (errText : String)
    (activeBinId : Int) (ps : List PositionObs) : StatusMap × List Msg :=
  if queryFails then (m, [Msg.checkError errText])
  else checkPositionsLoop activeBinId m ps

end MeteoraMonitor

/-- A run of successive observations of one single position (one call of
checkOnePosition per monitoring cycle), each observation giving the
position's bounds and the active bin: (lowerBin, upperBin, activeBinId). -/
def runPosition (k : String) :
    StatusMap → List (Int × Int × Int) → StatusMap × List Msg
  | m, [] => (m, [])
  | m, ob :: rest =>
      let r := MeteoraMonitor.checkOnePosition m ob.2.2
        { positionKey := k, lowerBin := ob.1, upperBin := ob.2.1 }
      let rr := runPosition k r.1 rest
      (rr.1, r.2 ++ rr.2)

/-- The lastNotified flag currently recorded for a key (with the same
default the code uses for unseen positions). -/
def notifiedOf (m : StatusMap) (k : String) : Bool :=
  ((mapGet m k).getD { isInRange := true, lastNotified := false }).lastNotified

/-- The alert stream for key k alternates, starting according to the
current lastNotified flag b: with b = false the next alert can only be an
out-of-range alert, with b = true only a back-in-range alert, and each
alert flips the phase.  In particular two out-of-range alerts always have
a back-in-range alert strictly between them, and conversely. -/
def AltFrom (k : String) : Bool → List Msg → Prop
  | _, [] => True
  | b, msg :: ms =>
      match b, msg with
      | false, Msg.outOfRangeAlert k' => k' = k ∧ AltFrom k true ms
      | true, Msg.backInRange k' => k' = k ∧ AltFrom k false ms
      | _, _ => False

/-! ## Monitoring cycle of the rebalancing bot (second module)

checkPositions there (lines 510-549) has the same range tracking, but the
out-of-range branch also runs rebalancePosition between sending the alert
and recording lastNotified = true; an error thrown by the rebalance
escapes the for loop (the status update and Map.set of that position
never run) and is caught by the top-level catch, which sends the
error message and ends the cycle. -/

/-- Result of the loop body for one position in the rebalancing bot. -/
structure StepResult where
  flag : Bool
  map : StatusMap
  msgs : List Msg
  /-- an exception escaped this iteration (thrown by rebalancePosition) -/
  aborted : Bool
  deriving DecidableEq, Repr

/-- The body of the for loop of the rebalancing checkPositions
(lines 516-542). -/
def checkOnePositionCycle (isRebalancing : Bool) (m : StatusMap)
    (activeBinId : Int) (p : PositionObs) (re : RebalanceEnv) : StepResult :=
  let isInRange := decide (p.lowerBin ≤ activeBinId ∧ activeBinId ≤ p.upperBin)
  let status := (mapGet m p.positionKey).getD
    { isInRange := true, lastNotified := false }
  if !isInRange && !status.lastNotified then
    let out := rebalancePosition isRebalancing re
    if out.errored then
      { flag := out.flagAfter, map := m,
        msgs := Msg.outOfRangeAlert p.positionKey :: out.msgs,
        aborted := true }
    else
      { flag := out.flagAfter,
        map := mapSet m p.positionKey
          { isInRange := isInRange, lastNotified := true },
        msgs := Msg.outOfRangeAlert p.positionKey :: out.msgs,
        aborted := false }
  else if isInRange && status.lastNotified then
    { flag := isRebalancing,
      map := mapSet m p.positionKey
        { isInRange := isInRange, lastNotified := false },
      msgs := [Msg.backInRange p.positionKey], aborted := false }
  else
    { flag := isRebalancing,
      map := mapSet m p.positionKey
        { isInRange := isInRange, lastNotified := status.lastNotified },
      msgs := [], aborted := false }

/-- Result of a whole monitoring cycle of the rebalancing bot. -/
structure CycleResult where
  flag : Bool
  map : StatusMap
  msgs : List Msg
  deriving DecidableEq, Repr

/-- The for loop of the rebalancing checkPositions; a thrown rebalance
error aborts the loop and reaches the top-level catch, which sends the
error message with the thrown error's text. -/
def checkPositionsCycleLoop (activeBinId : Int) :
    Bool → StatusMap → List (PositionObs × RebalanceEnv) → CycleResult
  | flag, m, [] => { flag := flag, map := m, msgs := [] }
  | flag, m, (p, re) :: rest =>
      let r := checkOnePositionCycle flag m activeBinId p re
      if r.aborted then
        { flag := r.flag, map := r.map,
          msgs := r.msgs ++ [Msg.checkError re.errMsg] }
      else
        let rr := checkPositionsCycleLoop activeBinId r.flag r.map rest
        { flag := rr.flag, map := rr.map, msgs := r.msgs ++ rr.msgs }

/-- Inputs and collaborator outcomes for one monitoring cycle of the
rebalancing bot. -/
structure CycleEnv where
  /-- getPositionsByUserAndLbPair or getActiveBin at the start of the
  cycle throws. -/
  queryFails : Bool
  /-- message text of the query error, if one is thrown. -/
  errText : String
  activeBinId : Int
  /-- the fetched positions, each with the collaborator outcomes its
  rebalance would observe. -/
  positions : List (PositionObs × RebalanceEnv)
  deriving DecidableEq, Repr

/-- checkPositions of the rebalancing bot (lines 510-549). -/
def checkPositionsCycle (isRebalancing : Bool) (m : StatusMap)
    (env : CycleEnv) : CycleResult :=
  if env.queryFails then
    { flag := isRebalancing, map := m, msgs := [Msg.checkError env.errText] }
  else checkPositionsCycleLoop env.activeBinId isRebalancing m env.positions

/-- The invariant of the status map: every stored out-of-range entry is
already notified. -/
def StatusInv (m : StatusMap) : Prop :=
  ∀ k st, mapGet m k = some st → st.isInRange = false → st.lastNotified = true

/-- Status maps reachable from the empty initial map by monitoring cycles
of either bot, over arbitrary observations and collaborator outcomes
(including cycles aborted by query errors or thrown rebalance errors). -/
inductive ReachableStatuses : StatusMap → Prop
  | init : ReachableStatuses []
  | stepMonitor (m : StatusMap) (qf : Bool) (e : String) (idx : Int)
      (ps : List PositionObs) : ReachableStatuses m →
      ReachableStatuses (MeteoraMonitor.checkPositions m qf e idx ps).1
  | stepCycle (m : StatusMap) (flag : Bool) (env : CycleEnv) :
      ReachableStatuses m →
      ReachableStatuses (checkPositionsCycle flag m env).map

/-- Predicate selecting the range alerts (out-of-range or back-in-range)
for the position with key k. -/
def isAlertFor (k : String) : Msg → Bool
  | Msg.outOfRangeAlert k2 => k2 == k
  | Msg.backInRange k2 => k2 == k
  | _ => false

/-- Restriction of a message trace to the range alerts for key k. -/
def alertsFor (k : String) (ms : List Msg) : List Msg :=
  ms.filter (isAlertFor k)

/-- A run of successive monitoring cycles of the rebalancing bot, each
observing the one position with key k: per cycle the observation gives
(lowerBin, upperBin, activeBinId) and the collaborator outcomes the
triggered rebalance (if any) would see.  An aborted iteration ends its
cycle with the error message; the next cycle proceeds from the same map,
exactly as the bot does. -/
def runPositionCycle (k : String) :
    Bool → StatusMap → List (Int × Int × Int × RebalanceEnv) →
      StatusMap × List Msg
  | _, m, [] => (m, [])
  | flag, m, ob :: rest =>
      let r := checkOnePositionCycle flag m ob.2.2.1
        { positionKey := k, lowerBin := ob.1, upperBin := ob.2.1 } ob.2.2.2
      let rr := runPositionCycle k r.flag r.map rest
      if r.aborted then
        (rr.1, (r.msgs ++ [Msg.checkError ob.2.2.2.errMsg]) ++ rr.2)
      else
        (rr.1, r.msgs ++ rr.2)

/-- A fully succeeding collaborator environment, used in witnesses:
1000 X, 400 Y at price 1.0 (the xValue=1000 / yValue=400 scenario). -/
def happyEnv : RebalanceEnv :=
  { withdrawCallFails := false, withdrawTxs := [true, true],
    balanceReadFails := false, xBalance := 1000, yBalance := 400,
    activeBinFails := false, priceScaled := 1000000, routeFound := true,
    swapExecFails := false, finalBalanceReadFails := false,
    finalXBalance := 111, finalYBalance := 80000000,
    activeBinAtDeposit := 200, depositTxFails := false, errMsg := "e" }

/-- The same environment but with dlmm.removeLiquidity throwing, so the
triggered rebalance throws back into the monitoring cycle. -/
def throwingEnv : RebalanceEnv :=
  { happyEnv with withdrawCallFails := true }

/-- A monitoring cycle of the rebalancing bot observing one position with
range [100,110] at active bin 115 whose triggered rebalance throws. -/
def cexCycleEnv : CycleEnv :=
  { queryFails := false, errText := "q", activeBinId := 115,
    positions := [({ positionKey := "p", lowerBin := 100, upperBin := 110 },
      throwingEnv)] }

/-! ## Supporting lemmas -/

theorem mapGet_mapSet (m : StatusMap) (k k' : String) (v : PositionStatus) :
    mapGet (mapSet m k v) k' = if k = k' then some v else mapGet m k' := by
  induction m with
  | nil =>
    by_cases h : k = k' <;> simp [mapSet, mapGet, h]
  | cons a rest ih =>
    obtain ⟨ak, av⟩ := a
    by_cases h : ak = k
    · subst h
      by_cases h2 : ak = k' <;> simp [mapSet, mapGet, h2]
    · by_cases h2 : ak = k'
      · subst h2
        have hkk : ¬ k = ak := fun he => h he.symm
        simp [mapSet, mapGet, h, hkk]
      · simp [mapSet, mapGet, h, h2, ih]

theorem notifiedOf_mapSet_self (m : StatusMap) (k : String) (v : PositionStatus) :
    notifiedOf (mapSet m k v) k = v.lastNotified := by
  simp [notifiedOf, mapGet_mapSet]

/-- Complete case analysis of one step of the plain monitor's range
tracker: the out-of-range edge, the back-in-range edge, or no alert. -/
theorem checkOnePosition_cases (m : StatusMap) (idx : Int) (p : PositionObs) :
    (decide (p.lowerBin ≤ idx ∧ idx ≤ p.upperBin) = false ∧
      notifiedOf m p.positionKey = false ∧
      MeteoraMonitor.checkOnePosition m idx p =
        (mapSet m p.positionKey { isInRange := false, lastNotified := true },
         [Msg.outOfRangeAlert p.positionKey])) ∨
    (decide (p.lowerBin ≤ idx ∧ idx ≤ p.upperBin) = true ∧
      notifiedOf m p.positionKey = true ∧
      MeteoraMonitor.checkOnePosition m idx p =
        (mapSet m p.positionKey { isInRange := true, lastNotified := false },
         [Msg.backInRange p.positionKey])) ∨
    ((decide (p.lowerBin ≤ idx ∧ idx ≤ p.upperBin) = true ∧
        notifiedOf m p.positionKey = false ∨
      decide (p.lowerBin ≤ idx ∧ idx ≤ p.upperBin) = false ∧
        notifiedOf m p.positionKey = true) ∧
      MeteoraMonitor.checkOnePosition m idx p =
        (mapSet m p.positionKey
          { isInRange := decide (p.lowerBin ≤ idx ∧ idx ≤ p.upperBin),
            lastNotified := notifiedOf m p.positionKey }, [])) := by
  unfold MeteoraMonitor.checkOnePosition notifiedOf
  cases hin : decide (p.lowerBin ≤ idx ∧ idx ≤ p.upperBin) <;>
    cases hold : ((mapGet m p.positionKey).getD
      { isInRange := true, lastNotified := false }).lastNotified <;>
    simp [hin, hold]

theorem alertsFor_nil (k : String) : alertsFor k [] = [] := rfl

theorem alertsFor_cons (k : String) (msg : Msg) (ms : List Msg) :
    alertsFor k (msg :: ms) =
      if isAlertFor k msg then msg :: alertsFor k ms else alertsFor k ms := by
  simp [alertsFor, List.filter_cons]

theorem alertsFor_append (k : String) (a b : List Msg) :
    alertsFor k (a ++ b) = alertsFor k a ++ alertsFor k b := by
  simp [alertsFor]

theorem alertsFor_removeLiquidityLoop (k : String) (txs : List Bool) :
    alertsFor k (removeLiquidityLoop txs).1 = [] := by
  induction txs with
  | nil => rfl
  | cons b rest ih =>
    cases b <;>
      simp [removeLiquidityLoop, alertsFor_cons, alertsFor_nil, isAlertFor, ih]

theorem alertsFor_rebalanceBody (k : String) (env : RebalanceEnv) :
    alertsFor k (rebalanceBody env).msgs = [] := by
  simp only [rebalanceBody, depositPhase, createNewPosition, swap]
  split_ifs <;>
    simp [alertsFor_cons, alertsFor_append, alertsFor_nil, isAlertFor,
      alertsFor_removeLiquidityLoop]

/-- No message produced by rebalancePosition is a range alert: the alerts
come only from the monitoring loop itself. -/
theorem alertsFor_rebalance (k : String) (flag : Bool) (env : RebalanceEnv) :
    alertsFor k (rebalancePosition flag env).msgs = [] := by
  cases flag
  · cases hb : (rebalanceBody env).errored <;>
      simp [rebalancePosition, hb, alertsFor_cons, alertsFor_append,
        alertsFor_nil, isAlertFor, alertsFor_rebalanceBody]
  · simp [rebalancePosition, alertsFor_cons, alertsFor_nil, isAlertFor]

/-- Complete case analysis of one iteration of the rebalancing bot's
monitoring loop: the out-of-range edge with a throwing rebalance (the
iteration aborts and the status is not stored), the out-of-range edge
with a returning rebalance, the back-in-range edge, and no alert. -/
theorem checkOnePositionCycle_cases (flag : Bool) (m : StatusMap) (idx : Int)
    (p : PositionObs) (re : RebalanceEnv) :
    (decide (p.lowerBin ≤ idx ∧ idx ≤ p.upperBin) = false ∧
      notifiedOf m p.positionKey = false ∧
      (rebalancePosition flag re).errored = true ∧
      checkOnePositionCycle flag m idx p re =
        { flag := (rebalancePosition flag re).flagAfter, map := m,
          msgs := Msg.outOfRangeAlert p.positionKey ::
            (rebalancePosition flag re).msgs,
          aborted := true }) ∨
    (decide (p.lowerBin ≤ idx ∧ idx ≤ p.upperBin) = false ∧
      notifiedOf m p.positionKey = false ∧
      (rebalancePosition flag re).errored = false ∧
      checkOnePositionCycle flag m idx p re =
        { flag := (rebalancePosition flag re).flagAfter,
          map := mapSet m p.positionKey
            { isInRange := false, lastNotified := true },
          msgs := Msg.outOfRangeAlert p.positionKey ::
            (rebalancePosition flag re).msgs,
          aborted := false }) ∨
    (decide (p.lowerBin ≤ idx ∧ idx ≤ p.upperBin) = true ∧
      notifiedOf m p.positionKey = true ∧
      checkOnePositionCycle flag m idx p re =
        { flag := flag,
          map := mapSet m p.positionKey
            { isInRange := true, lastNotified := false },
          msgs := [Msg.backInRange p.positionKey], aborted := false }) ∨
    ((decide (p.lowerBin ≤ idx ∧ idx ≤ p.upperBin) = true ∧
        notifiedOf m p.positionKey = false ∨
      decide (p.lowerBin ≤ idx ∧ idx ≤ p.upperBin) = false ∧
        notifiedOf m p.positionKey = true) ∧
      checkOnePositionCycle flag m idx p re =
        { flag := flag,
          map := mapSet m p.positionKey
            { isInRange := decide (p.lowerBin ≤ idx ∧ idx ≤ p.upperBin),
              lastNotified := notifiedOf m p.positionKey },
          msgs := [], aborted := false }) := by
  unfold checkOnePositionCycle notifiedOf
  cases hin : decide (p.lowerBin ≤ idx ∧ idx ≤ p.upperBin) <;>
    cases hold : ((mapGet m p.positionKey).getD
      { isInRange := true, lastNotified := false }).lastNotified <;>
    cases herr : (rebalancePosition flag re).errored <;>
    simp [hin, hold, herr]

/-- When the triggered rebalance returns without throwing, one iteration
of the rebalancing bot's loop updates the status map exactly as the plain
monitor's step does, and its range alerts are exactly the plain step's
messages. -/
theorem checkOnePositionCycle_agrees (flag : Bool) (m : StatusMap) (idx : Int)
    (p : PositionObs) (re : RebalanceEnv)
    (h : (rebalancePosition flag re).errored = false) :
    (checkOnePositionCycle flag m idx p re).aborted = false ∧
    (checkOnePositionCycle flag m idx p re).map =
      (MeteoraMonitor.checkOnePosition m idx p).1 ∧
    alertsFor p.positionKey (checkOnePositionCycle flag m idx p re).msgs =
      (MeteoraMonitor.checkOnePosition m idx p).2 := by
  rcases checkOnePositionCycle_cases flag m idx p re with
    ⟨_, _, herr, _⟩ | ⟨hin, hold, _, heq⟩ | ⟨hin, hold, heq⟩ | ⟨hcs, heq⟩
  · rw [h] at herr; cases herr
  · rcases checkOnePosition_cases m idx p with
      ⟨_, _, heq2⟩ | ⟨hin2, _, _⟩ | ⟨hcs2, _⟩
    · rw [heq, heq2]
      refine ⟨rfl, rfl, ?_⟩
      simp [alertsFor_cons, isAlertFor, alertsFor_rebalance]
    · rw [hin] at hin2; cases hin2
    · rcases hcs2 with ⟨hin2, _⟩ | ⟨_, hold2⟩
      · rw [hin] at hin2; cases hin2
      · rw [hold] at hold2; cases hold2
  · rcases checkOnePosition_cases m idx p with
      ⟨hin2, _, _⟩ | ⟨_, _, heq2⟩ | ⟨hcs2, _⟩
    · rw [hin] at hin2; cases hin2
    · rw [heq, heq2]
      refine ⟨rfl, rfl, ?_⟩
      simp [alertsFor_cons, alertsFor_nil, isAlertFor]
    · rcases hcs2 with ⟨_, hold2⟩ | ⟨hin2, _⟩
      · rw [hold] at hold2; cases hold2
      · rw [hin] at hin2; cases hin2
  · rcases checkOnePosition_cases m idx p with
      ⟨hin2, hold2, _⟩ | ⟨hin2, hold2, _⟩ | ⟨_, heq2⟩
    · rcases hcs with ⟨hin3, _⟩ | ⟨_, hold3⟩
      · rw [hin2] at hin3; cases hin3
      · rw [hold2] at hold3; cases hold3
    · rcases hcs with ⟨_, hold3⟩ | ⟨hin3, _⟩
      · rw [hold2] at hold3; cases hold3
      · rw [hin2] at hin3; cases hin3
    · rw [heq, heq2]
      exact ⟨rfl, rfl, by simp [alertsFor_nil]⟩

/-- One iteration of the rebalancing bot's loop at an out-of-range
observation of a not-yet-notified position: the alert is always sent; the
status is stored as notified exactly when the triggered rebalance returns,
and the map is left untouched when it throws. -/
theorem cycle_first_alert (flag : Bool) (m : StatusMap) (idx : Int)
    (k : String) (lo hi : Int) (re : RebalanceEnv)
    (hin : decide (lo ≤ idx ∧ idx ≤ hi) = false)
    (hold : notifiedOf m k = false) :
    alertsFor k (checkOnePositionCycle flag m idx
        { positionKey := k, lowerBin := lo, upperBin := hi } re).msgs =
      [Msg.outOfRangeAlert k] ∧
    ((rebalancePosition flag re).errored = true →
      (checkOnePositionCycle flag m idx
        { positionKey := k, lowerBin := lo, upperBin := hi } re).map = m) ∧
    ((rebalancePosition flag re).errored = false →
      (checkOnePositionCycle flag m idx
        { positionKey := k, lowerBin := lo, upperBin := hi } re).map =
        mapSet m k { isInRange := false, lastNotified := true }) := by
  have hc := checkOnePositionCycle_cases flag m idx
    { positionKey := k, lowerBin := lo, upperBin := hi } re
  simp only at hc
  rcases hc with ⟨_, _, herr, heq⟩ | ⟨_, _, herr, heq⟩ | ⟨hi2, _, _⟩ | ⟨hcs, _⟩
  · refine ⟨?_, fun _ => by rw [heq], fun hf => ?_⟩
    · rw [heq]
      simp [alertsFor_cons, isAlertFor, alertsFor_rebalance]
    · rw [herr] at hf; cases hf
  · refine ⟨?_, fun hf => ?_, fun _ => by rw [heq]⟩
    · rw [heq]
      simp [alertsFor_cons, isAlertFor, alertsFor_rebalance]
    · rw [herr] at hf; cases hf
  · rw [hin] at hi2; cases hi2
  · rcases hcs with ⟨hi2, _⟩ | ⟨_, ho⟩
    · rw [hin] at hi2; cases hi2
    · rw [hold] at ho; cases ho

/-- Over a run in which every triggered rebalance returns without
throwing, the rebalancing bot's per-position trace has the same final map
as the plain monitor's, and its range alerts are exactly the plain
monitor's messages. -/
theorem runPositionCycle_eq_runPosition (k : String)
    (obs : List (Int × Int × Int × RebalanceEnv)) :
    ∀ (flag : Bool) (m : StatusMap),
      (∀ ob ∈ obs, (rebalancePosition false ob.2.2.2).errored = false) →
      (runPositionCycle k flag m obs).1 =
        (runPosition k m (obs.map (fun ob => (ob.1, ob.2.1, ob.2.2.1)))).1 ∧
      alertsFor k (runPositionCycle k flag m obs).2 =
        (runPosition k m (obs.map (fun ob => (ob.1, ob.2.1, ob.2.2.1)))).2 := by
  induction obs with
  | nil => intro flag m _; exact ⟨rfl, rfl⟩
  | cons ob rest ih =>
    intro flag m h
    obtain ⟨lo, hi, idx, re⟩ := ob
    have hre : (rebalancePosition flag re).errored = false := by
      cases flag
      · exact h (lo, hi, idx, re) (List.mem_cons_self _ _)
      · rfl
    have hag := checkOnePositionCycle_agrees flag m idx
      { positionKey := k, lowerBin := lo, upperBin := hi } re hre
    simp only at hag
    have hrest := ih (checkOnePositionCycle flag m idx
        { positionKey := k, lowerBin := lo, upperBin := hi } re).flag
      (checkOnePositionCycle flag m idx
        { positionKey := k, lowerBin := lo, upperBin := hi } re).map
      (fun ob hob => h ob (List.mem_cons_of_mem _ hob))
    rw [hag.2.1] at hrest
    simp only [runPositionCycle, List.map_cons, runPosition, hag.1,
      Bool.false_eq_true, if_false]
    rw [hag.2.1]
    refine ⟨hrest.1, ?_⟩
    rw [alertsFor_append, hag.2.2, hrest.2]

/-! ## C3: the lock is released on every exit path -/

/-- C3: whenever rebalancePosition acquires the lock (the rebalancing
flag was false at entry), the flag is false again after the invocation,
on every exit path: normal return and an exception thrown at any
pipeline stage. -/
theorem rebalancePosition_releases_lock (env : RebalanceEnv) :
    (rebalancePosition false env).flagAfter = false := rfl

/-! ## C4: a call made while the flag is set is a pure skip -/

/-- C4: a call of rebalancePosition made while the rebalancing flag is
already true sends exactly one skip notification, performs no withdraw,
swap or deposit, leaves the flag set, and returns without error; hence a
second trigger while one rebalance is in flight only produces the skip. -/
theorem rebalancePosition_skips_when_locked (env : RebalanceEnv) :
    rebalancePosition true env =
      { flagAfter := true, errored := false, msgs := [Msg.skipRebalance],
        withdrawAttempts := 0, swapCall := none, deposited := none } := rfl

/-! ## C6: the planner sells half of the larger-value side -/

/-- C6: the planner always sells from the larger-value side and halves
that side's quantity: if xValue > yValue it sells X with amount
xBalance / 2, otherwise (equality included) it sells Y with amount
yBalance / 2, where yValue = yBalance * floor(price*1e6) / 1e6 in
truncated integer arithmetic. -/
theorem rebalance_sell_side_selection (x y p : Nat) :
    (x > yValueOf y p →
      swapDecision x y p = { swapAmount := x / 2, swapYToX := false }) ∧
    (x ≤ yValueOf y p →
      swapDecision x y p = { swapAmount := y / 2, swapYToX := true }) := by
  constructor
  · intro h
    simp [swapDecision, h]
  · intro h
    simp [swapDecision, Nat.not_lt.mpr h]

/-- Witness for C6 at Scenario 4 (x side larger: sells X, 500) and at the
balanced point (equal values: sells Y). -/
theorem rebalance_sell_side_selection_witness :
    swapDecision 1000 400 1000000 = { swapAmount := 500, swapYToX := false } ∧
    swapDecision 10 10 1000000 = { swapAmount := 5, swapYToX := true } :=
  ⟨(rebalance_sell_side_selection 1000 400 1000000).1 (by decide),
   (rebalance_sell_side_selection 10 10 1000000).2 (by decide)⟩

/-! ## C8: a failed query aborts the cycle without touching any state -/

/-- C8: if the position-list or active-bin query at the start of a
monitoring cycle throws, the cycle aborts with exactly one error
notification carrying the failure text, and the position-status map (and
the rebalancing flag) are left completely unchanged. -/
theorem checkPositionsCycle_query_failure (flag : Bool) (m : StatusMap)
    (env : CycleEnv) (h : env.queryFails = true) :
    checkPositionsCycle flag m env =
      { flag := flag, map := m, msgs := [Msg.checkError env.errText] } := by
  simp [checkPositionsCycle, h]

/-- Witness for C8 at a concrete failing cycle. -/
theorem checkPositionsCycle_query_failure_witness :
    checkPositionsCycle false
        [("p", { isInRange := true, lastNotified := false })]
        { queryFails := true, errText := "rpc down", activeBinId := 0,
          positions := [] } =
      { flag := false,
        map := [("p", { isInRange := true, lastNotified := false })],
        msgs := [Msg.checkError "rpc down"] } :=
  checkPositionsCycle_query_failure false
    [("p", { isInRange := true, lastNotified := false })] _ rfl

/-! ## C5: the swap guard -/

/-- C5: the planner skips the swap exactly when the sell-side value is at
most totalValue / 100 (truncated division) or the computed sell amount is
zero; and in a run of the pipeline that reaches the planning stage, the
swap is invoked with the computed amount exactly when the guard holds. -/
theorem rebalance_swap_guard (x y p : Nat) (env : RebalanceEnv) :
    (shouldSwap x y p = false ↔
      (if (swapDecision x y p).swapYToX then yValueOf y p else x) ≤
          (x + yValueOf y p) / 100 ∨
        (swapDecision x y p).swapAmount = 0) ∧
    (env.withdrawCallFails = false → env.balanceReadFails = false →
      env.activeBinFails = false →
      (rebalancePosition false env).swapCall =
        (if shouldSwap env.xBalance env.yBalance env.priceScaled then
          some ((swapDecision env.xBalance env.yBalance env.priceScaled).swapAmount,
            (swapDecision env.xBalance env.yBalance env.priceScaled).swapYToX)
         else none)) := by
  constructor
  · simp only [shouldSwap, Bool.and_eq_false_iff, decide_eq_false_iff_not,
      Nat.not_lt, Nat.le_zero, gt_iff_lt]
    tauto
  · intro h1 h2 h3
    rcases env with ⟨wcf, wtxs, brf, xb, yb, abf, ps, rf, sef, fbrf, fxb, fyb, abd, dtf, em⟩
    simp only at h1 h2 h3
    subst h1; subst h2; subst h3
    simp only [rebalancePosition, rebalanceBody, depositPhase,
      Bool.false_eq_true, if_false]
    split
    · split <;> simp
    · simp

/-- Witness for C5: the guard iff at the balanced small input, and the
pipeline invoking the swap with amount 500 in the happy environment. -/
theorem rebalance_swap_guard_witness :
    (shouldSwap 10 10 1000000 = false ↔
      (if (swapDecision 10 10 1000000).swapYToX then yValueOf 10 1000000
        else 10) ≤ (10 + yValueOf 10 1000000) / 100 ∨
        (swapDecision 10 10 1000000).swapAmount = 0) ∧
    (rebalancePosition false happyEnv).swapCall = some (500, false) := by
  refine ⟨(rebalance_swap_guard 10 10 1000000 happyEnv).1, ?_⟩
  have h := (rebalance_swap_guard 10 10 1000000 happyEnv).2 rfl rfl rfl
  rw [h]; decide

/-! ## C9: parameters of the deposit step -/

/-- C9: on every run of rebalancePosition that acquired the lock and
completed without error, the deposit opened the new position on the range
[activeBin - 5, activeBin + 5] with the active bin freshly fetched at
deposit time, deposited the full re-read X balance, and deposited the
re-read native balance minus the 0.07e9 reserve when that balance exceeds
the reserve, and 0 otherwise. -/
theorem rebalance_deposit_parameters (env : RebalanceEnv)
    (h : (rebalancePosition false env).errored = false) :
    (rebalancePosition false env).deposited =
      some (env.finalXBalance,
        if env.finalYBalance > 70000000 then env.finalYBalance - 70000000 else 0,
        env.activeBinAtDeposit - 5, env.activeBinAtDeposit + 5) := by
  have hb : (rebalanceBody env).errored = false := h
  show (rebalanceBody env).deposited = _
  simp only [rebalanceBody, depositPhase, createNewPosition, solToDeposit,
    reservedSol] at hb ⊢
  split_ifs at hb ⊢ <;> simp_all

/-- Witness for C9 in the happy environment: deposit of the re-read
balances around bin 200. -/
theorem rebalance_deposit_parameters_witness :
    (rebalancePosition false happyEnv).deposited =
      some (111, 10000000, 195, 205) := by
  have h := rebalance_deposit_parameters happyEnv (by decide)
  rw [h]; decide

/-! ## C7: failure handling per pipeline stage (corrected) -/

/-- C7 counterexample: the try block of removePositionLiquidity wraps the
whole submission loop, so when the first of two withdraw sub-transactions
fails, the second is never submitted: only 1 of the 2 sub-transactions is
attempted, contradicting the claim that a failure does not prevent the
remaining sub-transactions from being submitted. -/
theorem removeLiquidity_abort_counterexample :
    (removeLiquidityLoop [false, true]).2 = 1 ∧
    (removeLiquidityLoop [false, true]).2 ≠ [false, true].length := by
  decide

/-- C7 as amended: during withdraw, a failed sub-transaction submission
sends one failure notification and stops the submission of the remaining
sub-transactions, but the failure is swallowed — it never aborts the rest
of the rebalance pipeline; whereas a transaction failure during the swap
or the deposit propagates and aborts the whole pipeline. -/
theorem withdraw_swap_deposit_failure_modes :
    (∀ pre suf : List Bool, (∀ b ∈ pre, b = true) →
      removeLiquidityLoop (pre ++ false :: suf) =
        (List.replicate pre.length Msg.removedLiquidity ++
          [Msg.removeLiquidityFailed], pre.length + 1)) ∧
    (∀ env : RebalanceEnv, env.withdrawCallFails = false →
      env.balanceReadFails = false → env.activeBinFails = false →
      (shouldSwap env.xBalance env.yBalance env.priceScaled = false ∨
        (env.routeFound = true ∧ env.swapExecFails = false)) →
      env.finalBalanceReadFails = false → env.depositTxFails = false →
      (rebalancePosition false env).errored = false) ∧
    (∀ env : RebalanceEnv, env.withdrawCallFails = false →
      env.balanceReadFails = false → env.activeBinFails = false →
      shouldSwap env.xBalance env.yBalance env.priceScaled = true →
      (env.routeFound = false ∨ env.swapExecFails = true) →
      (rebalancePosition false env).errored = true) ∧
    (∀ env : RebalanceEnv, env.withdrawCallFails = false →
      env.balanceReadFails = false → env.activeBinFails = false →
      (shouldSwap env.xBalance env.yBalance env.priceScaled = false ∨
        (env.routeFound = true ∧ env.swapExecFails = false)) →
      env.finalBalanceReadFails = false → env.depositTxFails = true →
      (rebalancePosition false env).errored = true) := by
  refine ⟨?_, ?_, ?_, ?_⟩
  · intro pre suf hpre
    induction pre with
    | nil => simp [removeLiquidityLoop]
    | cons b rest ih =>
      have hb : b = true := hpre b (List.mem_cons_self b rest)
      subst hb
      have hrest : ∀ b ∈ rest, b = true := fun b hb =>
        hpre b (List.mem_cons_of_mem _ hb)
      simp [removeLiquidityLoop, ih hrest, List.replicate_succ]
  · intro env h1 h2 h3 h4 h5 h6
    rcases env with ⟨wcf, wtxs, brf, xb, yb, abf, ps, rf, sef, fbrf, fxb, fyb, abd, dtf, em⟩
    simp only at h1 h2 h3 h4 h5 h6
    subst h1; subst h2; subst h3; subst h5; subst h6
    show (rebalanceBody _).errored = false
    rcases h4 with h4 | ⟨h4a, h4b⟩
    · simp [rebalanceBody, depositPhase, createNewPosition, h4]
    · subst h4a; subst h4b
      simp [rebalanceBody, depositPhase, createNewPosition, swap]
      split <;> simp
  · intro env h1 h2 h3 h4 h5
    rcases env with ⟨wcf, wtxs, brf, xb, yb, abf, ps, rf, sef, fbrf, fxb, fyb, abd, dtf, em⟩
    simp only at h1 h2 h3 h4 h5
    subst h1; subst h2; subst h3
    show (rebalanceBody _).errored = true
    rcases h5 with h5 | h5
    · subst h5
      simp [rebalanceBody, depositPhase, createNewPosition, swap, h4]
    · subst h5
      simp [rebalanceBody, depositPhase, createNewPosition, swap, h4]
      split <;> simp
  · intro env h1 h2 h3 h4 h5 h6
    rcases env with ⟨wcf, wtxs, brf, xb, yb, abf, ps, rf, sef, fbrf, fxb, fyb, abd, dtf, em⟩
    simp only at h1 h2 h3 h4 h5 h6
    subst h1; subst h2; subst h3; subst h5; subst h6
    show (rebalanceBody _).errored = true
    rcases h4 with h4 | ⟨h4a, h4b⟩
    · simp [rebalanceBody, depositPhase, createNewPosition, h4]
    · subst h4a; subst h4b
      simp [rebalanceBody, depositPhase, createNewPosition, swap]
      split <;> simp

/-- Witness for C7 as amended: one concrete instance of each conjunct. -/
theorem withdraw_swap_deposit_failure_modes_witness :
    removeLiquidityLoop [true, false, true] =
      ([Msg.removedLiquidity, Msg.removeLiquidityFailed], 2) ∧
    (rebalancePosition false { happyEnv with withdrawTxs := [false, true] }).errored
      = false ∧
    (rebalancePosition false { happyEnv with routeFound := false }).errored
      = true ∧
    (rebalancePosition false { happyEnv with depositTxFails := true }).errored
      = true := by
  refine ⟨?_, ?_, ?_, ?_⟩
  · have h := withdraw_swap_deposit_failure_modes.1 [true] [true] (by decide)
    simpa using h
  · exact withdraw_swap_deposit_failure_modes.2.1 _ rfl rfl rfl
      (Or.inr ⟨rfl, rfl⟩) rfl rfl
  · exact withdraw_swap_deposit_failure_modes.2.2.1 _ rfl rfl rfl
      (by decide) (Or.inl rfl)
  · exact withdraw_swap_deposit_failure_modes.2.2.2 _ rfl rfl rfl
      (Or.inr ⟨rfl, rfl⟩) rfl rfl

/-! ## C1: first observation of an already out-of-range position (corrected)

The alert guard only tests lastNotified, whose default for an unseen
position is false, so the alert fires already on the very first
observation, not on the poll after it.  In the rebalancing bot the
behaviour of the following poll further depends on the triggered
rebalance: if it throws, the status is never stored and the alert fires
again. -/

/-- C1 counterexample: a position with range [100,110] first observed
(empty status map) at active bin 115 gets an out-of-range alert on that
very first observation, and no alert on the second observation at 115 —
the claim states the opposite distribution of alerts over the two polls. -/
theorem firstObservation_alert_counterexample :
    (MeteoraMonitor.checkOnePosition [] 115
        { positionKey := "p", lowerBin := 100, upperBin := 110 }).2 ≠ [] ∧
    (MeteoraMonitor.checkOnePosition
        (MeteoraMonitor.checkOnePosition [] 115
          { positionKey := "p", lowerBin := 100, upperBin := 110 }).1 115
        { positionKey := "p", lowerBin := 100, upperBin := 110 }).2 = [] := by
  decide

/-- C1 as amended: for every position first observed while out of range
(no entry yet in the status map), exactly one out-of-range alert is sent
already on that first observation, in both bots.  In the plain monitor —
and in the rebalancing bot whenever the rebalance triggered by the alert
returns without throwing — the stored status becomes out-of-range with
lastNotified = true and no further alert is sent on the immediately
following poll; when the triggered rebalance throws, no status is stored
and the out-of-range alert fires again on the immediately following
poll. -/
theorem checkOnePosition_first_seen_out_of_range (m : StatusMap) (k : String)
    (lo hi idx idx2 : Int) (flag : Bool) (re re2 : RebalanceEnv)
    (hnew : mapGet m k = none)
    (hout : ¬(lo ≤ idx ∧ idx ≤ hi)) (hout2 : ¬(lo ≤ idx2 ∧ idx2 ≤ hi)) :
    (MeteoraMonitor.checkOnePosition m idx
        { positionKey := k, lowerBin := lo, upperBin := hi }).2 =
      [Msg.outOfRangeAlert k] ∧
    mapGet (MeteoraMonitor.checkOnePosition m idx
        { positionKey := k, lowerBin := lo, upperBin := hi }).1 k =
      some { isInRange := false, lastNotified := true } ∧
    (MeteoraMonitor.checkOnePosition
        (MeteoraMonitor.checkOnePosition m idx
          { positionKey := k, lowerBin := lo, upperBin := hi }).1 idx2
        { positionKey := k, lowerBin := lo, upperBin := hi }).2 = [] ∧
    alertsFor k (checkOnePositionCycle flag m idx
        { positionKey := k, lowerBin := lo, upperBin := hi } re).msgs =
      [Msg.outOfRangeAlert k] ∧
    ((rebalancePosition flag re).errored = false →
      mapGet (checkOnePositionCycle flag m idx
          { positionKey := k, lowerBin := lo, upperBin := hi } re).map k =
        some { isInRange := false, lastNotified := true } ∧
      alertsFor k (checkOnePositionCycle
          (checkOnePositionCycle flag m idx
            { positionKey := k, lowerBin := lo, upperBin := hi } re).flag
          (checkOnePositionCycle flag m idx
            { positionKey := k, lowerBin := lo, upperBin := hi } re).map
          idx2 { positionKey := k, lowerBin := lo, upperBin := hi }
          re2).msgs = []) ∧
    ((rebalancePosition flag re).errored = true →
      (checkOnePositionCycle flag m idx
          { positionKey := k, lowerBin := lo, upperBin := hi } re).map = m ∧
      alertsFor k (checkOnePositionCycle
          (checkOnePositionCycle flag m idx
            { positionKey := k, lowerBin := lo, upperBin := hi } re).flag
          m idx2 { positionKey := k, lowerBin := lo, upperBin := hi }
          re2).msgs = [Msg.outOfRangeAlert k]) := by
  have h1 : decide (lo ≤ idx ∧ idx ≤ hi) = false := decide_eq_false hout
  have h2 : decide (lo ≤ idx2 ∧ idx2 ≤ hi) = false := decide_eq_false hout2
  have hold0 : notifiedOf m k = false := by simp [notifiedOf, hnew]
  have hfa := cycle_first_alert flag m idx k lo hi re h1 hold0
  refine ⟨?_, ?_, ?_, hfa.1, ?_, ?_⟩
  · simp [MeteoraMonitor.checkOnePosition, hnew, h1]
  · simp [MeteoraMonitor.checkOnePosition, hnew, h1, mapGet_mapSet]
  · simp [MeteoraMonitor.checkOnePosition, hnew, h1, h2, mapGet_mapSet]
  · intro herr
    have hmap := hfa.2.2 herr
    constructor
    · rw [hmap, mapGet_mapSet]
      simp
    · have hold1 : notifiedOf (checkOnePositionCycle flag m idx
          { positionKey := k, lowerBin := lo, upperBin := hi } re).map k
            = true := by
        rw [hmap]
        simp [notifiedOf_mapSet_self]
      have hc := checkOnePositionCycle_cases
        (checkOnePositionCycle flag m idx
          { positionKey := k, lowerBin := lo, upperBin := hi } re).flag
        (checkOnePositionCycle flag m idx
          { positionKey := k, lowerBin := lo, upperBin := hi } re).map
        idx2 { positionKey := k, lowerBin := lo, upperBin := hi } re2
      simp only at hc
      rcases hc with ⟨_, ho, _, _⟩ | ⟨_, ho, _, _⟩ | ⟨hi2, _, _⟩ | ⟨_, heq⟩
      · rw [hold1] at ho; cases ho
      · rw [hold1] at ho; cases ho
      · rw [h2] at hi2; cases hi2
      · rw [heq]
        exact alertsFor_nil k
  · intro herr
    have hfa2 := cycle_first_alert (checkOnePositionCycle flag m idx
        { positionKey := k, lowerBin := lo, upperBin := hi } re).flag
      m idx2 k lo hi re2 h2 hold0
    exact ⟨hfa.2.1 herr, hfa2.1⟩

/-- Witness for C1 as amended: the first-observation alert at a concrete
input, in the plain monitor and in the rebalancing bot (there with a
throwing rebalance). -/
theorem checkOnePosition_first_seen_out_of_range_witness :
    (MeteoraMonitor.checkOnePosition [] 115
        { positionKey := "q", lowerBin := 100, upperBin := 110 }).2 =
      [Msg.outOfRangeAlert "q"] ∧
    alertsFor "q" (checkOnePositionCycle false [] 115
        { positionKey := "q", lowerBin := 100, upperBin := 110 }
        throwingEnv).msgs = [Msg.outOfRangeAlert "q"] := by
  have h := checkOnePosition_first_seen_out_of_range [] "q" 100 110 115 115
    false throwingEnv throwingEnv rfl (by decide) (by decide)
  exact ⟨h.1, h.2.2.2.1⟩

/-! ## C2: edge-triggered alerts, at most one per streak (corrected)

The dedup holds for the plain monitor unconditionally; in the rebalancing
bot a thrown rebalance aborts the iteration before lastNotified is
recorded, so the out-of-range alert is re-sent on the next poll of the
same streak. -/

/-- Along any run of observations of a single position, the alert stream
alternates starting from the currently stored lastNotified flag. -/
theorem runPosition_altFrom (k : String) (obs : List (Int × Int × Int)) :
    ∀ m : StatusMap, AltFrom k (notifiedOf m k) (runPosition k m obs).2 := by
  induction obs with
  | nil => intro m; simp [runPosition, AltFrom]
  | cons ob rest ih =>
    intro m
    obtain ⟨lo, hi, idx⟩ := ob
    have hc := checkOnePosition_cases m idx
      { positionKey := k, lowerBin := lo, upperBin := hi }
    simp only at hc
    rcases hc with ⟨hin, hold, heq⟩ | ⟨hin, hold, heq⟩ | ⟨hcase, heq⟩
    · simp only [runPosition, heq]
      rw [hold]
      simp only [AltFrom]
      simpa [notifiedOf_mapSet_self] using
        ih (mapSet m k { isInRange := false, lastNotified := true })
    · simp only [runPosition, heq]
      rw [hold]
      simp only [AltFrom]
      simpa [notifiedOf_mapSet_self] using
        ih (mapSet m k { isInRange := true, lastNotified := false })
    · simp only [runPosition, heq]
      simpa [notifiedOf_mapSet_self] using
        ih (mapSet m k
          { isInRange := decide (lo ≤ idx ∧ idx ≤ hi),
            lastNotified := notifiedOf m k })

/-- C2 counterexample: in the rebalancing bot, a position with range
[100,110] observed twice at active bin 115 — a single contiguous
out-of-range streak — receives two out-of-range alerts when the rebalance
triggered by the first alert throws, because the iteration aborts before
lastNotified is recorded; the original claim limits the streak to one
alert. -/
theorem cycle_repeated_alert_counterexample :
    alertsFor "p" (runPositionCycle "p" false []
        [(100, 110, 115, throwingEnv), (100, 110, 115, throwingEnv)]).2 =
      [Msg.outOfRangeAlert "p", Msg.outOfRangeAlert "p"] ∧
    Msg.outOfRangeAlert "p" ∈ (checkPositionsCycle false [] cexCycleEnv).msgs ∧
    Msg.outOfRangeAlert "p" ∈
      (checkPositionsCycle (checkPositionsCycle false [] cexCycleEnv).flag
        (checkPositionsCycle false [] cexCycleEnv).map cexCycleEnv).msgs := by
  decide

/-- C2 as amended: alerts are edge-triggered, and deduplicated whenever
the triggered rebalances return.  Per step of the range tracker: the
out-of-range alert is sent exactly when the observation is out of range
and lastNotified was false, the back-in-range alert exactly when the
observation is in range and lastNotified was true, and lastNotified
becomes true only when an out-of-range alert is sent and becomes false
only when a back-in-range alert is sent while it was true.  Along every
observation sequence of a single position the alert stream alternates
(AltFrom) — strictly between two out-of-range alerts there is a
back-in-range alert, which fires only at an in-range observation, so at
most one out-of-range alert is sent per contiguous out-of-range streak
and at most one back-in-range alert per return to range — unconditionally
in the plain monitor, and in the rebalancing bot provided every
alert-triggered rebalance returns without throwing (a non-throwing
iteration of the rebalancing loop agrees with the plain step); when a
triggered rebalance throws, the status update is skipped and the
out-of-range alert is re-sent on the next poll of the same streak (the
counterexample). -/
theorem rangeTracker_edge_semantics :
    (∀ (m : StatusMap) (idx : Int) (p : PositionObs),
      ((MeteoraMonitor.checkOnePosition m idx p).2 =
          [Msg.outOfRangeAlert p.positionKey] ↔
        decide (p.lowerBin ≤ idx ∧ idx ≤ p.upperBin) = false ∧
          notifiedOf m p.positionKey = false) ∧
      ((MeteoraMonitor.checkOnePosition m idx p).2 =
          [Msg.backInRange p.positionKey] ↔
        decide (p.lowerBin ≤ idx ∧ idx ≤ p.upperBin) = true ∧
          notifiedOf m p.positionKey = true) ∧
      (notifiedOf (MeteoraMonitor.checkOnePosition m idx p).1 p.positionKey
          = true ∧ notifiedOf m p.positionKey = false →
        (MeteoraMonitor.checkOnePosition m idx p).2 =
          [Msg.outOfRangeAlert p.positionKey]) ∧
      (notifiedOf (MeteoraMonitor.checkOnePosition m idx p).1 p.positionKey
          = false ∧ notifiedOf m p.positionKey = true →
        (MeteoraMonitor.checkOnePosition m idx p).2 =
          [Msg.backInRange p.positionKey])) ∧
    (∀ (m : StatusMap) (k : String) (obs : List (Int × Int × Int)),
      AltFrom k (notifiedOf m k) (runPosition k m obs).2) ∧
    (∀ (flag : Bool) (m : StatusMap) (idx : Int) (p : PositionObs)
        (re : RebalanceEnv), (rebalancePosition flag re).errored = false →
      (checkOnePositionCycle flag m idx p re).map =
        (MeteoraMonitor.checkOnePosition m idx p).1 ∧
      alertsFor p.positionKey (checkOnePositionCycle flag m idx p re).msgs =
        (MeteoraMonitor.checkOnePosition m idx p).2) ∧
    (∀ (k : String) (obs : List (Int × Int × Int × RebalanceEnv))
        (flag : Bool) (m : StatusMap),
      (∀ ob ∈ obs, (rebalancePosition false ob.2.2.2).errored = false) →
      AltFrom k (notifiedOf m k)
        (alertsFor k (runPositionCycle k flag m obs).2)) := by
  refine ⟨?_, fun m k obs => runPosition_altFrom k obs m,
    fun flag m idx p re h => ⟨(checkOnePositionCycle_agrees flag m idx p re h).2.1,
      (checkOnePositionCycle_agrees flag m idx p re h).2.2⟩, ?_⟩
  · intro m idx p
    rcases checkOnePosition_cases m idx p with
      ⟨hin, hold, heq⟩ | ⟨hin, hold, heq⟩ | ⟨hcase, heq⟩
    · rw [heq]
      simp [notifiedOf_mapSet_self, hin, hold]
    · rw [heq]
      simp [notifiedOf_mapSet_self, hin, hold]
    · rw [heq]
      rcases hcase with ⟨hin, hold⟩ | ⟨hin, hold⟩ <;>
        simp [notifiedOf_mapSet_self, hin, hold]
  · intro k obs flag m h
    rw [(runPositionCycle_eq_runPosition k obs flag m h).2]
    exact runPosition_altFrom k
      (obs.map fun ob => (ob.1, ob.2.1, ob.2.2.1)) m

/-- Witness for C2 as amended: the out-of-range edge at a concrete first
observation via the step characterization, and the alternation of the
rebalancing bot's alerts over a concrete non-throwing cycle. -/
theorem rangeTracker_edge_semantics_witness :
    (MeteoraMonitor.checkOnePosition [] 115
        { positionKey := "w", lowerBin := 100, upperBin := 110 }).2 =
      [Msg.outOfRangeAlert "w"] ∧
    AltFrom "w" (notifiedOf [] "w")
      (alertsFor "w" (runPositionCycle "w" false []
        [(100, 110, 115, happyEnv)]).2) := by
  refine ⟨(rangeTracker_edge_semantics.1 [] 115
      { positionKey := "w", lowerBin := 100, upperBin := 110 }).2.2.1
      ⟨by decide, by decide⟩, ?_⟩
  exact rangeTracker_edge_semantics.2.2.2 "w" [(100, 110, 115, happyEnv)]
    false [] (by decide)

/-! ## C10: every stored out-of-range entry is already notified -/

theorem statusInv_mapSet {m : StatusMap} {k : String} {v : PositionStatus}
    (hm : StatusInv m) (hv : v.isInRange = false → v.lastNotified = true) :
    StatusInv (mapSet m k v) := by
  intro k' st hget hfalse
  rw [mapGet_mapSet] at hget
  by_cases hk : k = k'
  · rw [if_pos hk] at hget
    injection hget with h
    subst h
    exact hv hfalse
  · rw [if_neg hk] at hget
    exact hm k' st hget hfalse

theorem statusInv_checkOnePosition (m : StatusMap) (idx : Int)
    (p : PositionObs) (hm : StatusInv m) :
    StatusInv (MeteoraMonitor.checkOnePosition m idx p).1 := by
  rcases checkOnePosition_cases m idx p with
    ⟨hin, hold, heq⟩ | ⟨hin, hold, heq⟩ | ⟨hcase, heq⟩
  · rw [heq]
    exact statusInv_mapSet hm (fun _ => rfl)
  · rw [heq]
    refine statusInv_mapSet hm ?_
    intro hf
    simp at hf
  · rw [heq]
    refine statusInv_mapSet hm ?_
    intro hf
    simp only at hf
    rcases hcase with ⟨hin, hold⟩ | ⟨hin, hold⟩
    · rw [hin] at hf
      cases hf
    · exact hold

theorem statusInv_checkPositionsLoop (idx : Int) (ps : List PositionObs) :
    ∀ m : StatusMap, StatusInv m →
      StatusInv (MeteoraMonitor.checkPositionsLoop idx m ps).1 := by
  induction ps with
  | nil =>
    intro m hm
    simpa [MeteoraMonitor.checkPositionsLoop] using hm
  | cons p ps ih =>
    intro m hm
    simp only [MeteoraMonitor.checkPositionsLoop]
    exact ih _ (statusInv_checkOnePosition m idx p hm)

theorem statusInv_checkPositions_monitor (m : StatusMap) (qf : Bool)
    (e : String) (idx : Int) (ps : List PositionObs) (hm : StatusInv m) :
    StatusInv (MeteoraMonitor.checkPositions m qf e idx ps).1 := by
  unfold MeteoraMonitor.checkPositions
  split
  · exact hm
  · exact statusInv_checkPositionsLoop idx ps m hm

theorem statusInv_checkOnePositionCycle (flag : Bool) (m : StatusMap)
    (idx : Int) (p : PositionObs) (re : RebalanceEnv) (hm : StatusInv m) :
    StatusInv (checkOnePositionCycle flag m idx p re).map := by
  simp only [checkOnePositionCycle]
  split
  · rename_i h1
    split
    · exact hm
    · exact statusInv_mapSet hm (fun _ => rfl)
  · split
    · rename_i h1 h2
      refine statusInv_mapSet hm ?_
      intro hf
      simp only at hf
      rw [Bool.and_eq_true] at h2
      rw [h2.1] at hf
      cases hf
    · rename_i h1 h2
      refine statusInv_mapSet hm ?_
      intro hf
      simp only at hf
      show ((mapGet m p.positionKey).getD
        { isInRange := true, lastNotified := false }).lastNotified = true
      rw [Bool.not_eq_true, Bool.and_eq_false_iff] at h1
      rcases h1 with h1 | h1
      · rw [Bool.not_eq_false'] at h1
        rw [h1] at hf
        cases hf
      · rwa [Bool.not_eq_false'] at h1

theorem statusInv_checkPositionsCycleLoop (idx : Int)
    (ps : List (PositionObs × RebalanceEnv)) :
    ∀ (flag : Bool) (m : StatusMap), StatusInv m →
      StatusInv (checkPositionsCycleLoop idx flag m ps).map := by
  induction ps with
  | nil =>
    intro flag m hm
    simpa [checkPositionsCycleLoop] using hm
  | cons pr rest ih =>
    intro flag m hm
    obtain ⟨p, re⟩ := pr
    simp only [checkPositionsCycleLoop]
    split
    · exact statusInv_checkOnePositionCycle flag m idx p re hm
    · exact ih _ _ (statusInv_checkOnePositionCycle flag m idx p re hm)

theorem statusInv_checkPositionsCycle (flag : Bool) (m : StatusMap)
    (env : CycleEnv) (hm : StatusInv m) :
    StatusInv (checkPositionsCycle flag m env).map := by
  unfold checkPositionsCycle
  split
  · exact hm
  · exact statusInv_checkPositionsCycleLoop env.activeBinId env.positions
      flag m hm

/-- C10: in every reachable state of the position-status map (starting
from the empty map, stepping by monitoring cycles of either bot over
arbitrary observation sequences and collaborator outcomes, including
cycles aborted by query errors or thrown rebalance errors), every stored
entry with isInRange = false has lastNotified = true; a position stored
as out-of-range but not yet notified is never reachable. -/
theorem statusInv_reachable (m : StatusMap) (h : ReachableStatuses m) :
    StatusInv m := by
  induction h with
  | init =>
    intro k st hget
    simp [mapGet] at hget
  | stepMonitor m qf e idx ps _ ih =>
    exact statusInv_checkPositions_monitor m qf e idx ps ih
  | stepCycle m flag env _ ih =>
    exact statusInv_checkPositionsCycle flag m env ih

/-- Witness for C10: the invariant of the map reached by one monitoring
cycle that discovers a position out of range. -/
theorem statusInv_reachable_witness :
    StatusInv (MeteoraMonitor.checkPositions [] false "" 115
      [{ positionKey := "r", lowerBin := 100, upperBin := 110 }]).1 :=
  statusInv_reachable _
    (ReachableStatuses.stepMonitor [] false "" 115
      [{ positionKey := "r", lowerBin := 100, upperBin := 110 }]
      ReachableStatuses.init)
